import Mathlib

/-!
Verification development for the strategic-company-analyzer data-collection
pipeline (`data_collector.py`, `database_manager.py`, and the collection step
of `app.py`).

Modelling conventions:
* Python scalar values are modelled by the inductive type `PyVal`
  (`None`, `bool`, numbers, `str`). Python's `int`/`float` are modelled
  together as exact rationals (`ℚ`): decimal literals and the arithmetic the
  code performs are treated exactly, abstracting from IEEE-754 rounding.
* Python dicts (the loosely-typed field bags coming from the provider, and
  the `company_data` payload) are association lists `List (String × PyVal)`
  looked up on the first matching key; dict assignment updates the first
  occurrence or appends.
* `try/except` blocks become explicit case analysis: a fallible external
  fetch is an `Except Unit` value, and internal operations that can raise
  (`float(...)`, `len(...)` on a non-string, `', '.join` on non-strings)
  are modelled by `Option`/branching that mirrors where the exception is
  caught in the source.
* The SQLite tables are lists of row structures; the `AUTOINCREMENT id` and
  `created_at` columns are omitted (nothing in the claims depends on them).
-/

/-- Model of a Python scalar value as it appears in the provider field bags. -/
inductive PyVal where
  | none : PyVal
  | bool : Bool → PyVal
  | num : ℚ → PyVal
  | str : String → PyVal
deriving DecidableEq, Repr

/-- Python truthiness for the modelled values (`bool(v)`). -/
def PyVal.truthy : PyVal → Bool
  | .none => false
  | .bool b => b
  | .num q => !(q = 0 : Bool)
  | .str s => !(s = "" : Bool)

/-- Python `==` on the modelled values: numeric cross-type equality for
`bool`/numbers (`True == 1`), value equality within a type, `False` across
unrelated types. -/
def PyVal.pyEq : PyVal → PyVal → Bool
  | .none, .none => true
  | .bool a, .bool b => a = b
  | .bool a, .num b => (if a then (1 : ℚ) else 0) = b
  | .num a, .bool b => a = (if b then (1 : ℚ) else 0)
  | .num a, .num b => a = b
  | .str a, .str b => a = b
  | _, _ => false

/-- First-match lookup in an association list: Python `dict[key]` /
`dict.get(key)` (dicts have unique keys; the model tolerates duplicates by
taking the first). -/
def lookupKV : List (String × PyVal) → String → Option PyVal
  | [], _ => Option.none
  | (k', v) :: rest, k => if k' = k then some v else lookupKV rest k

/-- Python `dict.get(key, default)`. -/
def getKV (l : List (String × PyVal)) (k : String) (d : PyVal) : PyVal :=
  (lookupKV l k).getD d

/-- Python `dict[key] = value`: update the first occurrence, else append. -/
def setKV : List (String × PyVal) → String → PyVal → List (String × PyVal)
  | [], k, v => [(k, v)]
  | (k', v') :: rest, k, v =>
      if k' = k then (k, v) :: rest else (k', v') :: setKV rest k v

/-- The whitespace characters stripped by Python's `str.strip()` /
`float(str)` (ASCII subset; the inputs here are ASCII). -/
def isPySpace (c : Char) : Bool :=
  c = ' ' || c = '\t' || c = '\n' || c = '\r' || c = '\x0b' || c = '\x0c'

/-- Python `str.strip()` on the character list. -/
def pyStrip (l : List Char) : List Char :=
  ((l.dropWhile isPySpace).reverse.dropWhile isPySpace).reverse

/-- Python `str.upper()` per character (ASCII; the scraped market-cap text is
ASCII). -/
def pyUpperChar (c : Char) : Char :=
  if 'a' ≤ c ∧ c ≤ 'z' then Char.ofNat (c.toNat - 32) else c

/-- Digit run to a natural number (`foldl` over decimal digits). -/
def digitsToNat (l : List Char) : Nat :=
  l.foldl (fun a c => a * 10 + (c.toNat - 48)) 0

/-- Syntactic shape of an accepted Python float literal: sign, integer part,
fractional digits (value and count), decimal exponent. Its meaning is
`FloatRepr.toRat`. Kept first-order so concrete parses can be settled by
`decide`. -/
structure FloatRepr where
  neg : Bool
  ip : Nat
  fp : Nat
  flen : Nat
  exp : ℤ
deriving DecidableEq, Repr

/-- The rational denoted by a parsed float literal. -/
def FloatRepr.toRat (r : FloatRepr) : ℚ :=
  (if r.neg then (-1 : ℚ) else 1) * ((r.ip : ℚ) + (r.fp : ℚ) / (10 : ℚ) ^ r.flen) *
    (10 : ℚ) ^ r.exp

/-- Parse an unsigned decimal mantissa (`123`, `1.5`, `1.`, `.5`) as Python
`float` accepts it; `none` models `ValueError`. Returns (integer part,
fraction digits value, fraction digit count). -/
def parseDecMantissa (l : List Char) : Option (Nat × Nat × Nat) :=
  let a := l.takeWhile (fun c => c ≠ '.')
  let r := l.dropWhile (fun c => c ≠ '.')
  match r with
  | [] =>
      if a ≠ [] ∧ a.all Char.isDigit then some (digitsToNat a, 0, 0) else Option.none
  | _ :: b =>
      if (a ≠ [] ∨ b ≠ []) ∧ a.all Char.isDigit ∧ b.all Char.isDigit then
        some (digitsToNat a, digitsToNat b, b.length)
      else Option.none

/-- Parse an optionally signed digit run as an integer (the exponent part of a
Python float literal). -/
def parseSignedDigits : List Char → Option ℤ
  | '+' :: r => if r ≠ [] ∧ r.all Char.isDigit then some (digitsToNat r) else Option.none
  | '-' :: r => if r ≠ [] ∧ r.all Char.isDigit then some (-(digitsToNat r : ℤ)) else Option.none
  | l => if l ≠ [] ∧ l.all Char.isDigit then some (digitsToNat l) else Option.none

/-- Unsigned Python float literal: mantissa with optional `e`/`E` exponent. -/
def pyFloatUnsignedRepr (neg : Bool) (l : List Char) : Option FloatRepr :=
  let m := l.takeWhile (fun c => c ≠ 'e' ∧ c ≠ 'E')
  let r := l.dropWhile (fun c => c ≠ 'e' ∧ c ≠ 'E')
  match r with
  | [] => (parseDecMantissa m).map (fun p => ⟨neg, p.1, p.2.1, p.2.2, 0⟩)
  | _ :: ex => do
      let p ← parseDecMantissa m
      let e ← parseSignedDigits ex
      pure ⟨neg, p.1, p.2.1, p.2.2, e⟩

/-- Python `float(str)` on a character list, syntactic stage: strip
whitespace, optional sign, mantissa, optional exponent. (`inf`/`nan`/
underscore separators are outside the inputs this pipeline feeds it and are
not modelled.) `none` models `ValueError`. -/
def pyFloatRepr (l : List Char) : Option FloatRepr :=
  match pyStrip l with
  | '+' :: rest => pyFloatUnsignedRepr false rest
  | '-' :: rest => pyFloatUnsignedRepr true rest
  | t => pyFloatUnsignedRepr false t

/-- Python `float(str)` on a character list: the rational value of the parsed
literal. -/
def pyFloatChars (l : List Char) : Option ℚ :=
  (pyFloatRepr l).map FloatRepr.toRat

/-- Python `float(value)` on a modelled value: numbers pass through, bools
coerce to 0/1, strings parse, `None` raises `TypeError` (`none`). -/
def pyFloat : PyVal → Option ℚ
  | .num q => some q
  | .bool b => some (if b then 1 else 0)
  | .str s => pyFloatChars s.data
  | .none => Option.none

/-- Model of `CompanyDataCollector._safe_get_number`: `info.get(key, default)`; `None`
maps to the default; `float(value)` with `ValueError`/`TypeError` mapped to
the default. The caller-supplied default is numeric (`0` at every call site).
-/
def safe_get_number (info : List (String × PyVal)) (key : String) (default : ℚ) : ℚ :=
  match getKV info key (.num default) with
  | .none => default
  | v => (pyFloat v).getD default

/-- String payload of a value (used to model `', '.join` after the
all-strings check that guards its `TypeError`). -/
def PyVal.strVal : PyVal → String
  | .str s => s
  | _ => ""

/-- Whether a value is a Python `str`. -/
def PyVal.isStr : PyVal → Bool
  | .str _ => true
  | _ => false

/-- Model of `CompanyDataCollector._format_location`: collect the truthy values of
`city`/`state`/`country` (default `''`), join with `', '`; empty list gives
`'N/A'`. A non-string truthy part makes `', '.join` raise `TypeError`, caught
by the bare `except` returning `'N/A'`. -/
def format_location (info : List (String × PyVal)) : String :=
  let parts := [getKV info "city" (.str ""), getKV info "state" (.str ""),
                getKV info "country" (.str "")].filter PyVal.truthy
  if parts = [] then "N/A"
  else if parts.all PyVal.isStr then String.intercalate ", " (parts.map PyVal.strVal)
  else "N/A"

/-- Model of `CompanyDataCollector._get_description`: truthy `longBusinessSummary` is
truncated (`desc[:500] + '...'` when longer than 500 code points); a truthy
non-string summary makes `len(desc)` raise `TypeError`, caught by the bare
`except` returning `'N/A'`; otherwise fall back to
`info.get('description', 'N/A')`, returned as-is. -/
def get_description (info : List (String × PyVal)) : PyVal :=
  if (getKV info "longBusinessSummary" (.str "")).truthy then
    match getKV info "longBusinessSummary" (.str "") with
    | .str s =>
        if s.length > 500 then .str (String.mk (s.data.take 500) ++ "...") else .str s
    | _ => .str "N/A"
  else getKV info "description" (.str "N/A")

/-- The preprocessing line of `CompanyDataCollector._parse_market_value`:
`value_str.strip().upper().replace('$', '').replace(',', '')`. -/
def marketValueClean (s : String) : List Char :=
  (((pyStrip s.data).map pyUpperChar).filter (fun c => c ≠ '$')).filter
    (fun c => c ≠ ',')

/-- The branch structure of `_parse_market_value` after preprocessing: a
string containing `T`/`B`/`M` (checked in that order) has that letter removed
everywhere and the rest parsed as a float scaled by 10^12 / 10^9 / 10^6;
otherwise parse directly; any `float` failure is caught by the bare `except`
and yields 0. -/
def marketValueCore (l : List Char) : ℚ :=
  if 'T' ∈ l then
    ((pyFloatChars (l.filter (fun c => c ≠ 'T'))).map (· * (10 : ℚ) ^ 12)).getD 0
  else if 'B' ∈ l then
    ((pyFloatChars (l.filter (fun c => c ≠ 'B'))).map (· * (10 : ℚ) ^ 9)).getD 0
  else if 'M' ∈ l then
    ((pyFloatChars (l.filter (fun c => c ≠ 'M'))).map (· * (10 : ℚ) ^ 6)).getD 0
  else (pyFloatChars l).getD 0

/-- Model of `CompanyDataCollector._parse_market_value`. -/
def parse_market_value (s : String) : ℚ :=
  marketValueCore (marketValueClean s)

/-- The characters of a plain decimal numeral (the "numeric part" of a
market-value string): digits and the decimal point. -/
def decChars : List Char :=
  ['0', '1', '2', '3', '4', '5', '6', '7', '8', '9', '.']

/-- The `company_data` dict built by
`CompanyDataCollector.get_company_basic_info` from the provider field bag,
before the scraped-data merge. `symbol` is the requested ticker, `now` the
`datetime.now()` timestamp string. -/
def buildCompanyData (symbol now : String) (info : List (String × PyVal)) :
    List (String × PyVal) :=
  [("symbol", .str (String.mk (symbol.data.map pyUpperChar))),
   ("company_name", getKV info "longName" (getKV info "shortName" (.str symbol))),
   ("sector", getKV info "sector" (.str "N/A")),
   ("industry", getKV info "industry" (.str "N/A")),
   ("market_cap", .num (safe_get_number info "marketCap" 0)),
   ("enterprise_value", .num (safe_get_number info "enterpriseValue" 0)),
   ("revenue", .num (safe_get_number info "totalRevenue" 0)),
   ("employees", .num (safe_get_number info "fullTimeEmployees" 0)),
   ("founded_year", .num 0),
   ("headquarters", .str (format_location info)),
   ("website", getKV info "website" (.str "N/A")),
   ("description", get_description info),
   ("current_price", .num (safe_get_number info "currentPrice" 0)),
   ("previous_close", .num (safe_get_number info "previousClose" 0)),
   ("volume", .num (safe_get_number info "volume" 0)),
   ("avg_volume", .num (safe_get_number info "averageVolume" 0)),
   ("pe_ratio", .num (safe_get_number info "trailingPE" 0)),
   ("pb_ratio", .num (safe_get_number info "priceToBook" 0)),
   ("dividend_yield", .num (safe_get_number info "dividendYield" 0)),
   ("last_updated", .str now)]

/-- The "unset sentinel" notion of the merge policy: membership in the list
`[0, 'N/A', '']` under Python `==`. -/
def isSentinel (v : PyVal) : Bool :=
  v.pyEq (.num 0) || v.pyEq (.str "N/A") || v.pyEq (.str "")

/-- The merge condition of `get_company_basic_info`:
`value and (not company_data.get(key) or company_data.get(key) in [0, 'N/A', ''])`.
`cur` is `company_data.get(key)` (so `PyVal.none` for an absent key). -/
def mergeCond (cur : Option PyVal) (value : PyVal) : Bool :=
  value.truthy && (!(cur.getD .none).truthy || isSentinel (cur.getD .none))

/-- The merge loop of `get_company_basic_info`: for each scraped key/value in
order, overwrite `company_data[key]` when `mergeCond` holds. -/
def mergeScraped : List (String × PyVal) → List (String × PyVal) →
    List (String × PyVal)
  | cd, [] => cd
  | cd, (k, v) :: rest =>
      mergeScraped (if mergeCond (lookupKV cd k) v then setKV cd k v else cd) rest

/-- Model of `CompanyDataCollector.get_company_basic_info`, as a function of the
outcome of the two external fetches. `fetch` is the `ticker.info` call
(`Except.error` models a raised exception, caught by the outer handler
returning `None`); `scrape` is `scrape_yahoo_finance_safe` (its exception is
caught by the inner handler, which skips the merge). The provider bag being
falsy (`not info`) is the empty list, subsumed by the `len(info) < 5` check.
-/
def get_company_basic_info (symbol now : String)
    (fetch : Except Unit (List (String × PyVal)))
    (scrape : Except Unit (List (String × PyVal))) :
    Option (List (String × PyVal)) :=
  match fetch with
  | .error _ => Option.none
  | .ok info =>
      if info.length < 5 then Option.none
      else
        let cd := buildCompanyData symbol now info
        match scrape with
        | .error _ => some cd
        | .ok scraped => some (mergeScraped cd scraped)

/-- The twelve ratio keys produced by
`CompanyDataCollector.get_financial_ratios`, paired with the provider field
each is read from. -/
def ratioFields : List (String × String) :=
  [("pe_ratio", "trailingPE"), ("forward_pe", "forwardPE"),
   ("peg_ratio", "pegRatio"), ("price_to_sales", "priceToSalesTrailing12Months"),
   ("price_to_book", "priceToBook"), ("debt_to_equity", "debtToEquity"),
   ("roe", "returnOnEquity"), ("roa", "returnOnAssets"),
   ("profit_margin", "profitMargins"), ("operating_margin", "operatingMargins"),
   ("current_ratio", "currentRatio"), ("quick_ratio", "quickRatio")]

/-- Model of `CompanyDataCollector.get_financial_ratios`, as a function of the
`ticker.info` fetch outcome: on success, the twelve ratios each read through
`_safe_get_number` with default 0; a raised exception is caught and yields
the empty dict `{}`. -/
def get_financial_ratios (fetch : Except Unit (List (String × PyVal))) :
    List (String × ℚ) :=
  match fetch with
  | .error _ => []
  | .ok info => ratioFields.map (fun p => (p.1, safe_get_number info p.2 0))

/-- A row of the `companies` table (`database_manager.py`); the
`AUTOINCREMENT id` and `created_at` columns are omitted. The `symbol` column
is `TEXT UNIQUE NOT NULL`. -/
structure CompanyRow where
  symbol : PyVal
  company_name : PyVal
  sector : PyVal
  industry : PyVal
  market_cap : PyVal
  enterprise_value : PyVal
  revenue : PyVal
  employees : PyVal
  founded_year : PyVal
  headquarters : PyVal
  website : PyVal
  description : PyVal
  current_price : PyVal
  previous_close : PyVal
  volume : PyVal
  avg_volume : PyVal
  pe_ratio : PyVal
  pb_ratio : PyVal
  dividend_yield : PyVal
  last_updated : PyVal
deriving DecidableEq, Repr

/-- The row bound by `DatabaseManager.insert_company_data` from the payload
dict (`company_data.get(...)` with the defaults used at each position; the
bare `.get` calls default to `None`). -/
def companyRowOf (now : String) (cd : List (String × PyVal)) : CompanyRow where
  symbol := getKV cd "symbol" .none
  company_name := getKV cd "company_name" .none
  sector := getKV cd "sector" .none
  industry := getKV cd "industry" .none
  market_cap := getKV cd "market_cap" (.num 0)
  enterprise_value := getKV cd "enterprise_value" (.num 0)
  revenue := getKV cd "revenue" (.num 0)
  employees := getKV cd "employees" (.num 0)
  founded_year := getKV cd "founded_year" (.num 0)
  headquarters := getKV cd "headquarters" (.str "")
  website := getKV cd "website" (.str "")
  description := getKV cd "description" (.str "")
  current_price := getKV cd "current_price" (.num 0)
  previous_close := getKV cd "previous_close" (.num 0)
  volume := getKV cd "volume" (.num 0)
  avg_volume := getKV cd "avg_volume" (.num 0)
  pe_ratio := getKV cd "pe_ratio" (.num 0)
  pb_ratio := getKV cd "pb_ratio" (.num 0)
  dividend_yield := getKV cd "dividend_yield" (.num 0)
  last_updated := getKV cd "last_updated" (.str now)

/-- Model of `DatabaseManager.insert_company_data`: `INSERT OR REPLACE` into
`companies`, keyed by the `UNIQUE` constraint on `symbol` — the conflicting
row (if any) is deleted and the new row inserted. Binding `None` to the
`NOT NULL` `symbol` column raises `IntegrityError`, caught by the handler
which returns `False` with the table unchanged. Returns (table, success). -/
def insert_company_data (now : String) (tbl : List CompanyRow)
    (cd : List (String × PyVal)) : List CompanyRow × Bool :=
  let row := companyRowOf now cd
  if row.symbol = .none then (tbl, false)
  else (tbl.filter (fun r => r.symbol ≠ row.symbol) ++ [row], true)

/-- One record of the stock-history DataFrame as
`DatabaseManager.insert_stock_history` consumes it (date string plus the
OHLCV columns, already coerced by the `float(...)`/`int(...)` at the insert
site). -/
structure HistRecord where
  date : String
  open_price : ℚ
  high_price : ℚ
  low_price : ℚ
  close_price : ℚ
  volume : ℤ
deriving DecidableEq, Repr

/-- A row of the `stock_history` table (`id`/`created_at` omitted). -/
structure HistRow where
  symbol : String
  date : String
  open_price : ℚ
  high_price : ℚ
  low_price : ℚ
  close_price : ℚ
  volume : ℤ
deriving DecidableEq, Repr

/-- The row inserted for one history record. -/
def histRowOf (symbol : String) (r : HistRecord) : HistRow :=
  ⟨symbol, r.date, r.open_price, r.high_price, r.low_price, r.close_price, r.volume⟩

/-- Model of `DatabaseManager.insert_stock_history`: `DELETE FROM stock_history WHERE
symbol = ?`, then insert one row per record of the batch, in order; commits
and returns `True`. Returns (table, success). -/
def insert_stock_history (tbl : List HistRow) (symbol : String)
    (records : List HistRecord) : List HistRow × Bool :=
  (tbl.filter (fun r => r.symbol ≠ symbol) ++ records.map (histRowOf symbol), true)

/-- A row of the `executives` table (`id`/`created_at` omitted). -/
structure ExecRow where
  symbol : String
  name : PyVal
  title : PyVal
  age : PyVal
  total_pay : PyVal
deriving DecidableEq, Repr

/-- The row inserted for one executive dict
(`exec_data.get(...)` with the defaults at each position). -/
def execRowOf (symbol : String) (e : List (String × PyVal)) : ExecRow where
  symbol := symbol
  name := getKV e "name" (.str "")
  title := getKV e "title" (.str "")
  age := getKV e "age" (.num 0)
  total_pay := getKV e "total_pay" (.num 0)

/-- Model of `DatabaseManager.insert_executives`: `DELETE FROM executives WHERE
symbol = ?`, then insert one row per executive dict, in order; commits and
returns `True`. Returns (table, success). -/
def insert_executives (tbl : List ExecRow) (symbol : String)
    (execs : List (List (String × PyVal))) : List ExecRow × Bool :=
  (tbl.filter (fun r => r.symbol ≠ symbol) ++ execs.map (execRowOf symbol), true)

/-- The profile step of `collect_industry_data` (`app.py`) for one symbol:
call `get_company_basic_info`; on a profile, save it via
`insert_company_data` and count the symbol as successful; on `None`, write
nothing and count it as failed. Returns (companies table, succeeded). -/
def collectOne (symbol now : String)
    (fetch : Except Unit (List (String × PyVal)))
    (scrape : Except Unit (List (String × PyVal)))
    (tbl : List CompanyRow) : List CompanyRow × Bool :=
  match get_company_basic_info symbol now fetch scrape with
  | Option.none => (tbl, false)
  | some cd => ((insert_company_data now tbl cd).1, true)

theorem lookupKV_setKV_self (l : List (String × PyVal)) (k : String) (v : PyVal) :
    lookupKV (setKV l k v) k = some v := by
  induction l with
  | nil => simp [setKV, lookupKV]
  | cons p rest ih =>
      by_cases h : p.1 = k
      · simp [setKV, h, lookupKV]
      · simp [setKV, h, lookupKV, ih]

theorem lookupKV_setKV_ne (l : List (String × PyVal)) (k k' : String) (v : PyVal)
    (h : k' ≠ k) : lookupKV (setKV l k v) k' = lookupKV l k' := by
  induction l with
  | nil => simp [setKV, lookupKV, Ne.symm h]
  | cons p rest ih =>
      by_cases hp : p.1 = k
      · subst hp
        simp [setKV, lookupKV, Ne.symm h]
      · simp [setKV, hp, lookupKV, ih]

theorem lookupKV_mergeScraped_of_not_mem (scraped : List (String × PyVal))
    (cd : List (String × PyVal)) (k : String) (h : k ∉ scraped.map Prod.fst) :
    lookupKV (mergeScraped cd scraped) k = lookupKV cd k := by
  induction scraped generalizing cd with
  | nil => simp [mergeScraped]
  | cons p rest ih =>
      obtain ⟨k', v'⟩ := p
      simp only [List.map_cons, List.mem_cons] at h
      push_neg at h
      rw [mergeScraped, ih _ h.2]
      split
      · exact lookupKV_setKV_ne _ _ _ _ h.1
      · rfl

theorem lookupKV_mergeScraped_of_mem (scraped : List (String × PyVal))
    (cd : List (String × PyVal)) (k : String) (v : PyVal)
    (hnd : (scraped.map Prod.fst).Nodup) (hmem : (k, v) ∈ scraped) :
    lookupKV (mergeScraped cd scraped) k =
      if mergeCond (lookupKV cd k) v then some v else lookupKV cd k := by
  induction scraped generalizing cd with
  | nil => simp at hmem
  | cons p rest ih =>
      obtain ⟨k', v'⟩ := p
      rw [List.map_cons, List.nodup_cons] at hnd
      rcases List.mem_cons.mp hmem with heq | htail
      · have h1 : k = k' := congrArg Prod.fst heq
        have h2 : v = v' := congrArg Prod.snd heq
        subst h1
        subst h2
        simp only [mergeScraped]
        rw [lookupKV_mergeScraped_of_not_mem rest _ k hnd.1]
        by_cases hc : mergeCond (lookupKV cd k) v
        · rw [if_pos hc, if_pos hc]
          exact lookupKV_setKV_self _ _ _
        · rw [if_neg hc, if_neg hc]
      · have hk : k ≠ k' := by
          intro hkk
          exact hnd.1 (hkk ▸ (List.mem_map.mpr ⟨(k, v), htail, rfl⟩))
        simp only [mergeScraped]
        have hcur : lookupKV (if mergeCond (lookupKV cd k') v' then setKV cd k' v'
            else cd) k = lookupKV cd k := by
          by_cases hc : mergeCond (lookupKV cd k') v'
          · rw [if_pos hc]
            exact lookupKV_setKV_ne _ _ _ _ hk
          · rw [if_neg hc]
        rw [ih _ hnd.2 htail, hcur]

theorem mergeCond_num (p r : ℚ) :
    mergeCond (some (.num p)) (.num r) = ((PyVal.num r).truthy && isSentinel (.num p)) := by
  by_cases hp : p = 0 <;> by_cases hr : r = 0 <;>
    simp [mergeCond, isSentinel, PyVal.truthy, PyVal.pyEq, hp, hr]

/-- C1: for every field key the secondary-source supplement returns (the
scraper produces float values for `current_price` / `market_cap` only), the
merged profile's value for that key is the supplement's value when the
supplement's value is truthy and the primary value is an unset sentinel
(0 / `'N/A'` / `''`), and is the unchanged primary value in every other
case. -/
theorem merge_policy_primary_wins (symbol now : String)
    (info scraped : List (String × PyVal)) (k : String) (r : ℚ)
    (hnd : (scraped.map Prod.fst).Nodup)
    (hmem : (k, PyVal.num r) ∈ scraped)
    (hkey : k = "current_price" ∨ k = "market_cap") :
    ∃ p : ℚ,
      lookupKV (buildCompanyData symbol now info) k = some (.num p) ∧
      ((PyVal.num r).truthy ∧ isSentinel (.num p) →
        lookupKV (mergeScraped (buildCompanyData symbol now info) scraped) k =
          some (.num r)) ∧
      (¬((PyVal.num r).truthy ∧ isSentinel (.num p)) →
        lookupKV (mergeScraped (buildCompanyData symbol now info) scraped) k =
          some (.num p)) := by
  have main : ∀ p : ℚ,
      lookupKV (buildCompanyData symbol now info) k = some (.num p) →
      ((PyVal.num r).truthy ∧ isSentinel (.num p) →
        lookupKV (mergeScraped (buildCompanyData symbol now info) scraped) k =
          some (.num r)) ∧
      (¬((PyVal.num r).truthy ∧ isSentinel (.num p)) →
        lookupKV (mergeScraped (buildCompanyData symbol now info) scraped) k =
          some (.num p)) := by
    intro p hcd
    rw [lookupKV_mergeScraped_of_mem scraped _ k _ hnd hmem, hcd, mergeCond_num]
    constructor
    · intro h
      rw [if_pos (by simp [h.1, h.2])]
    · intro h
      have hb : ¬((PyVal.num r).truthy && isSentinel (.num p)) = true := by
        simp only [Bool.and_eq_true]
        exact h
      rw [if_neg hb]
  rcases hkey with rfl | rfl
  · exact ⟨safe_get_number info "currentPrice" 0, rfl,
      main (safe_get_number info "currentPrice" 0) rfl⟩
  · exact ⟨safe_get_number info "marketCap" 0, rfl,
      main (safe_get_number info "marketCap" 0) rfl⟩

theorem filter_ne_filter_eq_nil {α β : Type} [DecidableEq β] (f : α → β) (s : β)
    (l : List α) :
    ((l.filter (fun a => f a ≠ s)).filter (fun a => f a = s)) = [] := by
  induction l with
  | nil => rfl
  | cons x xs ih => by_cases h : f x = s <;> simp [List.filter_cons, h, ih]

theorem filter_ne_idem {α β : Type} [DecidableEq β] (f : α → β) (s : β)
    (l : List α) :
    ((l.filter (fun a => f a ≠ s)).filter (fun a => f a ≠ s)) =
      l.filter (fun a => f a ≠ s) := by
  induction l with
  | nil => rfl
  | cons x xs ih => by_cases h : f x = s <;> simp [List.filter_cons, h, ih]

/-- C2: when the primary provider's field bag has fewer than 5 fields (which
subsumes an empty bag), `get_company_basic_info` returns `None` and the
collection step leaves the companies table unchanged, recording a failure. -/
theorem sparse_data_unavailable (symbol now : String)
    (info : List (String × PyVal)) (scrape : Except Unit (List (String × PyVal)))
    (tbl : List CompanyRow) (h : info.length < 5) :
    get_company_basic_info symbol now (Except.ok info) scrape = Option.none ∧
    collectOne symbol now (Except.ok info) scrape tbl = (tbl, false) := by
  constructor
  · simp [get_company_basic_info, h]
  · simp [collectOne, get_company_basic_info, h]

/-- Witness for C2 at a concrete sparse input (the empty provider bag). -/
theorem sparse_data_unavailable_witness :
    get_company_basic_info "BBB" "2024-01-01" (Except.ok []) (Except.ok []) =
      Option.none ∧
    collectOne "BBB" "2024-01-01" (Except.ok []) (Except.ok []) [] = ([], false) :=
  sparse_data_unavailable "BBB" "2024-01-01" [] (Except.ok []) [] (by decide)

/-- C3: `insert_company_data` (the profile upsert) is idempotent — replaying
the same payload leaves exactly one `companies` row for the payload's symbol,
equal to the row a single invocation stores, and reports success. -/
theorem upsert_profile_idempotent (now : String) (tbl : List CompanyRow)
    (cd : List (String × PyVal)) (h : getKV cd "symbol" PyVal.none ≠ PyVal.none) :
    (insert_company_data now (insert_company_data now tbl cd).1 cd).1 =
      (insert_company_data now tbl cd).1 ∧
    ((insert_company_data now (insert_company_data now tbl cd).1 cd).1.filter
        (fun r => r.symbol = getKV cd "symbol" PyVal.none)).length = 1 ∧
    (insert_company_data now (insert_company_data now tbl cd).1 cd).2 = true := by
  have hne : ¬((companyRowOf now cd).symbol = PyVal.none) := h
  have hsym : (companyRowOf now cd).symbol = getKV cd "symbol" PyVal.none := rfl
  refine ⟨?_, ?_, ?_⟩
  · simp only [insert_company_data, if_neg hne]
    simp [List.filter_append, filter_ne_idem CompanyRow.symbol]
  · simp only [insert_company_data, if_neg hne]
    simp [List.filter_append, filter_ne_filter_eq_nil CompanyRow.symbol, hsym]
  · simp only [insert_company_data, if_neg hne]

/-- Witness for C3 at a concrete payload. -/
theorem upsert_profile_idempotent_witness :
    (insert_company_data "t"
        (insert_company_data "t" [] [("symbol", PyVal.str "AAPL")]).1
        [("symbol", PyVal.str "AAPL")]).1 =
      (insert_company_data "t" [] [("symbol", PyVal.str "AAPL")]).1 ∧
    ((insert_company_data "t"
        (insert_company_data "t" [] [("symbol", PyVal.str "AAPL")]).1
        [("symbol", PyVal.str "AAPL")]).1.filter
        (fun r => r.symbol = getKV [("symbol", PyVal.str "AAPL")] "symbol"
          PyVal.none)).length = 1 ∧
    (insert_company_data "t"
        (insert_company_data "t" [] [("symbol", PyVal.str "AAPL")]).1
        [("symbol", PyVal.str "AAPL")]).2 = true :=
  upsert_profile_idempotent "t" [] [("symbol", PyVal.str "AAPL")] (by decide)

/-- C4: `insert_stock_history` is a full replace — after a successful call
the rows stored for the symbol are exactly the new batch (so their count is
the batch length and no prior row, in particular no prior date, survives),
regardless of the table's previous contents; the call reports success. -/
theorem replace_history_full (tbl : List HistRow) (symbol : String)
    (records : List HistRecord) :
    (insert_stock_history tbl symbol records).1.filter
        (fun r => r.symbol = symbol) = records.map (histRowOf symbol) ∧
    ((insert_stock_history tbl symbol records).1.filter
        (fun r => r.symbol = symbol)).length = records.length ∧
    (insert_stock_history tbl symbol records).2 = true := by
  have h1 : (tbl.filter (fun r => r.symbol ≠ symbol)).filter
      (fun r => r.symbol = symbol) = [] := filter_ne_filter_eq_nil HistRow.symbol _ _
  have h2 : (records.map (histRowOf symbol)).filter (fun r => r.symbol = symbol) =
      records.map (histRowOf symbol) := by
    rw [List.filter_eq_self]
    intro a ha
    obtain ⟨x, _, rfl⟩ := List.mem_map.mp ha
    simp [histRowOf]
  refine ⟨?_, ?_, rfl⟩
  · simp only [insert_stock_history, List.filter_append, h1, h2, List.nil_append]
  · simp only [insert_stock_history, List.filter_append, h1, h2, List.nil_append,
      List.length_map]

/-- C10: replacing with an empty batch is a successful clearing operation for
both `stock_history` and `executives`: every prior row for the symbol is
deleted, nothing is inserted, and the call returns `True`. -/
theorem replace_empty_clears (tbl : List HistRow) (etbl : List ExecRow)
    (s : String) :
    (insert_stock_history tbl s []).1.filter (fun r => r.symbol = s) = [] ∧
    (insert_stock_history tbl s []).2 = true ∧
    (insert_executives etbl s []).1.filter (fun r => r.symbol = s) = [] ∧
    (insert_executives etbl s []).2 = true := by
  refine ⟨?_, rfl, ?_, rfl⟩
  · simp only [insert_stock_history, List.map_nil, List.append_nil]
    exact filter_ne_filter_eq_nil HistRow.symbol _ _
  · simp only [insert_executives, List.map_nil, List.append_nil]
    exact filter_ne_filter_eq_nil ExecRow.symbol _ _

/-- Witness for C1: a concrete supplement price fills the sentinel (0)
primary price of an empty provider bag. -/
theorem merge_policy_primary_wins_witness :
    lookupKV (mergeScraped (buildCompanyData "AAPL" "t" [])
      [("current_price", PyVal.num 3)]) "current_price" = some (PyVal.num 3) := by
  obtain ⟨p, hp, h1, _⟩ := merge_policy_primary_wins "AAPL" "t" []
    [("current_price", PyVal.num 3)] "current_price" 3 (by decide)
    (List.mem_singleton.mpr rfl) (Or.inl rfl)
  have hp' : some (PyVal.num p) =
      some (PyVal.num (safe_get_number [] "currentPrice" 0)) := hp.symm.trans rfl
  have hp0 : p = 0 := PyVal.num.inj (Option.some.inj hp')
  apply h1
  refine ⟨by decide, ?_⟩
  rw [hp0]
  decide

/-- C6: the numeric field extractor is total — it returns the coerced float
when `float(value)` succeeds, and the caller-supplied default when the field
is absent, is `None`, or is not coercible; no input makes it raise. -/
theorem safe_get_number_total (info : List (String × PyVal)) (key : String)
    (d : ℚ) :
    (lookupKV info key = Option.none → safe_get_number info key d = d) ∧
    (lookupKV info key = some PyVal.none → safe_get_number info key d = d) ∧
    (∀ v q, lookupKV info key = some v → pyFloat v = some q →
      safe_get_number info key d = q) ∧
    (∀ v, lookupKV info key = some v → pyFloat v = Option.none →
      safe_get_number info key d = d) := by
  refine ⟨?_, ?_, ?_, ?_⟩
  · intro h
    simp [safe_get_number, getKV, h, pyFloat]
  · intro h
    simp [safe_get_number, getKV, h]
  · intro v q hv hq
    cases v <;> simp_all [safe_get_number, getKV, pyFloat]
  · intro v hv hq
    cases v <;> simp_all [safe_get_number, getKV, pyFloat]

/-- Witness for C6: a non-coercible string value yields the supplied
default. -/
theorem safe_get_number_total_witness :
    safe_get_number [("x", PyVal.str "abc")] "x" 7 = 7 :=
  (safe_get_number_total [("x", PyVal.str "abc")] "x" 7).2.2.2 (PyVal.str "abc")
    rfl (by decide)

/-- Counterexample for C7: when the fetch raises, `get_financial_ratios`
returns the empty dict `{}` — not a mapping carrying the twelve ratio fields
with value 0, as the claim states. -/
theorem ratios_failure_empty :
    get_financial_ratios (Except.error ()) = [] ∧
    ("pe_ratio", (0 : ℚ)) ∉ get_financial_ratios (Except.error ()) := by
  constructor
  · rfl
  · simp [get_financial_ratios]

theorem lookup_get_financial_ratios (info : List (String × PyVal))
    (p : String × String) (hp : p ∈ ratioFields) :
    List.lookup p.1 (get_financial_ratios (Except.ok info)) =
      some (safe_get_number info p.2 0) := by
  simp only [ratioFields, List.mem_cons, List.not_mem_nil, or_false] at hp
  rcases hp with rfl | rfl | rfl | rfl | rfl | rfl | rfl | rfl | rfl | rfl |
    rfl | rfl <;> rfl

/-- C7 (amended): on a successful fetch the result carries exactly the twelve
named ratios, and each individual ratio is 0 whenever its own provider field
is unavailable in the bag (independently of the other fields); on an internal
failure the function returns the empty mapping rather than raising. -/
theorem get_financial_ratios_amended (info : List (String × PyVal)) :
    (get_financial_ratios (Except.ok info)).map Prod.fst =
      ["pe_ratio", "forward_pe", "peg_ratio", "price_to_sales", "price_to_book",
       "debt_to_equity", "roe", "roa", "profit_margin", "operating_margin",
       "current_ratio", "quick_ratio"] ∧
    (∀ p ∈ ratioFields, lookupKV info p.2 = Option.none →
      List.lookup p.1 (get_financial_ratios (Except.ok info)) = some (0 : ℚ)) ∧
    get_financial_ratios (Except.error ()) = [] := by
  refine ⟨rfl, ?_, rfl⟩
  intro p hp h0
  rw [lookup_get_financial_ratios info p hp]
  have hz : safe_get_number info p.2 0 = 0 := by
    simp [safe_get_number, getKV, h0, pyFloat]
  rw [hz]

/-- Witness for C7's amended claim at a mixed-availability bag: `trailingPE`
is present but `forwardPE` is absent, and the `forward_pe` entry is 0. -/
theorem get_financial_ratios_amended_witness :
    List.lookup "forward_pe"
      (get_financial_ratios (Except.ok [("trailingPE", PyVal.num 5)])) =
      some (0 : ℚ) :=
  (get_financial_ratios_amended [("trailingPE", PyVal.num 5)]).2.1
    ("forward_pe", "forwardPE") (by decide) rfl

/-- Counterexample for C8: a 501-character business summary is stored as its
first 500 characters plus `'...'` — 503 characters, exceeding the claimed
500-character cap. -/
theorem description_cap_counterexample :
    get_description [("longBusinessSummary",
        PyVal.str (String.mk (List.replicate 501 'a')))] =
      PyVal.str (String.mk (List.replicate 500 'a') ++ "...") ∧
    (String.mk (List.replicate 500 'a') ++ "...").length > 500 := by
  constructor
  · have hs : (String.mk (List.replicate 501 'a')).length > 500 := by
      rw [String.length_mk, List.length_replicate]
      decide
    have ht : (PyVal.str (String.mk (List.replicate 501 'a'))).truthy = true := by
      simp only [PyVal.truthy]
      decide
    simp only [get_description, getKV, lookupKV, if_pos rfl, Option.getD_some, ht,
      if_true, if_pos hs]
    have htake : (List.replicate 501 'a').take 500 = List.replicate 500 'a' := by
      rw [List.take_replicate]
      rfl
    rw [htake]
  · rw [String.length_append, String.length_mk, List.length_replicate]
    decide

/-- C8 (amended): a truthy business summary is stored as its first 500
characters with `'...'` appended when it exceeds 500 characters — so the
summary-derived description is at most 503 (not 500) characters; a falsy
summary falls back to the secondary `description` field (stored verbatim,
with `'N/A'` as the default when absent). -/
theorem get_description_amended (info : List (String × PyVal)) (s : String) :
    (getKV info "longBusinessSummary" (PyVal.str "") = PyVal.str s → s ≠ "" →
      get_description info =
        PyVal.str (if s.length > 500 then String.mk (s.data.take 500) ++ "..."
          else s) ∧
      (PyVal.strVal (get_description info)).length ≤ 503) ∧
    ((getKV info "longBusinessSummary" (PyVal.str "")).truthy = false →
      get_description info = getKV info "description" (PyVal.str "N/A")) := by
  constructor
  · intro hget hs
    have ht : (PyVal.str s).truthy = true := by simp [PyVal.truthy, hs]
    have hd : get_description info =
        PyVal.str (if s.length > 500 then String.mk (s.data.take 500) ++ "..."
          else s) := by
      simp only [get_description, hget, ht, if_true]
      rw [apply_ite PyVal.str]
    refine ⟨hd, ?_⟩
    rw [hd]
    simp only [PyVal.strVal]
    by_cases h5 : s.length > 500
    · rw [if_pos h5, String.length_append, String.length_mk, List.length_take]
      have h3 : ("..." : String).length = 3 := rfl
      have hm : min 500 s.data.length ≤ 500 := Nat.min_le_left _ _
      omega
    · rw [if_neg h5]
      omega
  · intro hf
    simp [get_description, hf]

/-- Witness for C8's amended claim on a short summary. -/
theorem get_description_amended_witness :
    get_description [("longBusinessSummary", PyVal.str "hi")] =
      PyVal.str (if ("hi" : String).length > 500 then
        String.mk (("hi" : String).data.take 500) ++ "..." else "hi") ∧
    (PyVal.strVal (get_description
      [("longBusinessSummary", PyVal.str "hi")])).length ≤ 503 :=
  (get_description_amended [("longBusinessSummary", PyVal.str "hi")] "hi").1 rfl
    (by decide)

theorem intercalate_one (a : String) : String.intercalate ", " [a] = a := rfl

theorem intercalate_pair (a b : String) :
    String.intercalate ", " [a, b] = a ++ ", " ++ b := rfl

theorem intercalate_triple (a b c : String) :
    String.intercalate ", " [a, b, c] = a ++ ", " ++ b ++ ", " ++ c := rfl

theorem append_sep_ne_empty (a b : String) : a ++ ", " ++ b ≠ "" := by
  intro h
  have hlen := congrArg String.length h
  rw [String.length_append, String.length_append] at hlen
  have h2 : (", " : String).length = 2 := rfl
  have h0 : ("" : String).length = 0 := rfl
  omega

/-- C9: the location formatter joins exactly the non-empty components of
city/state/country with `', '` in that order, yields the sentinel `'N/A'`
when all three are empty, and never returns the empty string; in particular
`("Austin", "", "USA")` formats as `"Austin, USA"`. -/
theorem format_location_spec (c s k : String) :
    format_location [("city", .str c), ("state", .str s), ("country", .str k)] =
      (if [c, s, k].filter (fun x => x ≠ "") = [] then "N/A"
       else String.intercalate ", " ([c, s, k].filter (fun x => x ≠ ""))) ∧
    format_location [("city", .str c), ("state", .str s), ("country", .str k)] ≠ "" ∧
    format_location [("city", .str "Austin"), ("state", .str ""),
      ("country", .str "USA")] = "Austin, USA" := by
  refine ⟨?_, ?_, by decide⟩
  · by_cases hc : c = "" <;> by_cases hs : s = "" <;> by_cases hk : k = "" <;>
      simp [format_location, getKV, lookupKV, PyVal.truthy, PyVal.isStr,
        PyVal.strVal, hc, hs, hk, intercalate_pair, intercalate_triple]
  · by_cases hc : c = "" <;> by_cases hs : s = "" <;> by_cases hk : k = "" <;>
      simp [format_location, getKV, lookupKV, PyVal.truthy, PyVal.isStr,
        PyVal.strVal, hc, hs, hk, intercalate_one, intercalate_pair,
        intercalate_triple, append_sep_ne_empty]

theorem decChar_props (c : Char) (h : c ∈ decChars) :
    pyUpperChar c = c ∧ isPySpace c = false ∧ c ≠ '$' ∧ c ≠ ',' ∧
    c ≠ 'T' ∧ c ≠ 'B' ∧ c ≠ 'M' := by
  simp only [decChars, List.mem_cons, List.not_mem_nil, or_false] at h
  rcases h with rfl | rfl | rfl | rfl | rfl | rfl | rfl | rfl | rfl | rfl | rfl <;>
    exact (by decide)

theorem dropWhile_eq_self_of_all {α : Type} (p : α → Bool) (l : List α)
    (h : ∀ c ∈ l, p c = false) : l.dropWhile p = l := by
  cases l with
  | nil => rfl
  | cons a as => simp [List.dropWhile_cons, h a (List.mem_cons_self a as)]

theorem pyStrip_eq_self (l : List Char) (h : ∀ c ∈ l, isPySpace c = false) :
    pyStrip l = l := by
  unfold pyStrip
  rw [dropWhile_eq_self_of_all _ _ h]
  rw [dropWhile_eq_self_of_all _ _ (fun c hc => h c (List.mem_reverse.mp hc))]
  exact List.reverse_reverse l

theorem map_eq_self_of_all {α : Type} (f : α → α) (l : List α)
    (h : ∀ c ∈ l, f c = c) : l.map f = l := by
  induction l with
  | nil => rfl
  | cons a as ih =>
      rw [List.map_cons, h a (List.mem_cons_self a as),
        ih (fun c hc => h c (List.mem_cons_of_mem a hc))]

theorem marketValueClean_eq_self (l : List Char)
    (h : ∀ c ∈ l, pyUpperChar c = c ∧ isPySpace c = false ∧ c ≠ '$' ∧ c ≠ ',') :
    marketValueClean (String.mk l) = l := by
  unfold marketValueClean
  have hdata : (String.mk l).data = l := rfl
  rw [hdata]
  rw [pyStrip_eq_self l (fun c hc => (h c hc).2.1)]
  rw [map_eq_self_of_all pyUpperChar l (fun c hc => (h c hc).1)]
  have hf1 : l.filter (fun c => c ≠ '$') = l :=
    List.filter_eq_self.mpr (fun c hc => by simpa using (h c hc).2.2.1)
  have hf2 : l.filter (fun c => c ≠ ',') = l :=
    List.filter_eq_self.mpr (fun c hc => by simpa using (h c hc).2.2.2)
  rw [hf1, hf2]

theorem parse_mv_T (l : List Char) (q : ℚ) (hl : ∀ c ∈ l, c ∈ decChars)
    (hq : pyFloatChars l = some q) :
    parse_market_value (String.mk (l ++ ['T'])) = q * (10 : ℚ) ^ 12 := by
  have hprops := fun c hc => decChar_props c (hl c hc)
  have hclean : marketValueClean (String.mk (l ++ ['T'])) = l ++ ['T'] := by
    apply marketValueClean_eq_self
    intro c hc
    rcases List.mem_append.mp hc with h1 | h2
    · exact ⟨(hprops c h1).1, (hprops c h1).2.1, (hprops c h1).2.2.1,
        (hprops c h1).2.2.2.1⟩
    · rw [List.mem_singleton.mp h2]
      exact ⟨by decide, by decide, by decide, by decide⟩
  rw [parse_market_value, hclean, marketValueCore]
  rw [if_pos (List.mem_append.mpr (Or.inr (List.mem_singleton.mpr rfl)))]
  have hfil : (l ++ ['T']).filter (fun c => c ≠ 'T') = l := by
    have h1 : l.filter (fun c => c ≠ 'T') = l :=
      List.filter_eq_self.mpr (fun c hc => by simpa using (hprops c hc).2.2.2.2.1)
    rw [List.filter_append, h1]
    simp
  rw [hfil, hq]
  rfl

theorem parse_mv_B (l : List Char) (q : ℚ) (hl : ∀ c ∈ l, c ∈ decChars)
    (hq : pyFloatChars l = some q) :
    parse_market_value (String.mk (l ++ ['B'])) = q * (10 : ℚ) ^ 9 := by
  have hprops := fun c hc => decChar_props c (hl c hc)
  have hclean : marketValueClean (String.mk (l ++ ['B'])) = l ++ ['B'] := by
    apply marketValueClean_eq_self
    intro c hc
    rcases List.mem_append.mp hc with h1 | h2
    · exact ⟨(hprops c h1).1, (hprops c h1).2.1, (hprops c h1).2.2.1,
        (hprops c h1).2.2.2.1⟩
    · rw [List.mem_singleton.mp h2]
      exact ⟨by decide, by decide, by decide, by decide⟩
  have hT : 'T' ∉ l ++ ['B'] := by
    intro hmem
    rcases List.mem_append.mp hmem with h1 | h2
    · exact (hprops 'T' h1).2.2.2.2.1 rfl
    · exact absurd (List.mem_singleton.mp h2) (by decide)
  rw [parse_market_value, hclean, marketValueCore, if_neg hT]
  rw [if_pos (List.mem_append.mpr (Or.inr (List.mem_singleton.mpr rfl)))]
  have hfil : (l ++ ['B']).filter (fun c => c ≠ 'B') = l := by
    have h1 : l.filter (fun c => c ≠ 'B') = l :=
      List.filter_eq_self.mpr (fun c hc => by simpa using (hprops c hc).2.2.2.2.2.1)
    rw [List.filter_append, h1]
    simp
  rw [hfil, hq]
  rfl

theorem parse_mv_M (l : List Char) (q : ℚ) (hl : ∀ c ∈ l, c ∈ decChars)
    (hq : pyFloatChars l = some q) :
    parse_market_value (String.mk (l ++ ['M'])) = q * (10 : ℚ) ^ 6 := by
  have hprops := fun c hc => decChar_props c (hl c hc)
  have hclean : marketValueClean (String.mk (l ++ ['M'])) = l ++ ['M'] := by
    apply marketValueClean_eq_self
    intro c hc
    rcases List.mem_append.mp hc with h1 | h2
    · exact ⟨(hprops c h1).1, (hprops c h1).2.1, (hprops c h1).2.2.1,
        (hprops c h1).2.2.2.1⟩
    · rw [List.mem_singleton.mp h2]
      exact ⟨by decide, by decide, by decide, by decide⟩
  have hT : 'T' ∉ l ++ ['M'] := by
    intro hmem
    rcases List.mem_append.mp hmem with h1 | h2
    · exact (hprops 'T' h1).2.2.2.2.1 rfl
    · exact absurd (List.mem_singleton.mp h2) (by decide)
  have hB : 'B' ∉ l ++ ['M'] := by
    intro hmem
    rcases List.mem_append.mp hmem with h1 | h2
    · exact (hprops 'B' h1).2.2.2.2.2.1 rfl
    · exact absurd (List.mem_singleton.mp h2) (by decide)
  rw [parse_market_value, hclean, marketValueCore, if_neg hT, if_neg hB]
  rw [if_pos (List.mem_append.mpr (Or.inr (List.mem_singleton.mpr rfl)))]
  have hfil : (l ++ ['M']).filter (fun c => c ≠ 'M') = l := by
    have h1 : l.filter (fun c => c ≠ 'M') = l :=
      List.filter_eq_self.mpr (fun c hc => by simpa using (hprops c hc).2.2.2.2.2.2)
    rw [List.filter_append, h1]
    simp
  rw [hfil, hq]
  rfl

theorem parse_mv_plain (l : List Char) (q : ℚ) (hl : ∀ c ∈ l, c ∈ decChars)
    (hq : pyFloatChars l = some q) :
    parse_market_value (String.mk l) = q := by
  have hprops := fun c hc => decChar_props c (hl c hc)
  have hclean : marketValueClean (String.mk l) = l :=
    marketValueClean_eq_self l (fun c hc => ⟨(hprops c hc).1, (hprops c hc).2.1,
      (hprops c hc).2.2.1, (hprops c hc).2.2.2.1⟩)
  have hT : 'T' ∉ l := fun h1 => (hprops 'T' h1).2.2.2.2.1 rfl
  have hB : 'B' ∉ l := fun h1 => (hprops 'B' h1).2.2.2.2.2.1 rfl
  have hM : 'M' ∉ l := fun h1 => (hprops 'M' h1).2.2.2.2.2.2 rfl
  rw [parse_market_value, hclean, marketValueCore, if_neg hT, if_neg hB,
    if_neg hM, hq]
  rfl

/-- C5: market-value parsing — after stripping `$`/commas and uppercasing, a
`T`/`B`/`M` suffix on a decimal numeral scales its value by 10^12 / 10^9 /
10^6, an unsuffixed numeral parses literally, and parse failures yield 0 (the
function is total); in particular `"2.5T"` ↦ 2.5e12, `"150.3B"` ↦ 1.503e11,
`"45M"` ↦ 4.5e7, `"garbage"` ↦ 0. -/
theorem parse_market_value_spec :
    parse_market_value "2.5T" = 2500000000000 ∧
    parse_market_value "150.3B" = 150300000000 ∧
    parse_market_value "45M" = 45000000 ∧
    parse_market_value "garbage" = 0 ∧
    (∀ (l : List Char) (q : ℚ), (∀ c ∈ l, c ∈ decChars) →
      pyFloatChars l = some q →
      parse_market_value (String.mk (l ++ ['T'])) = q * (10 : ℚ) ^ 12 ∧
      parse_market_value (String.mk (l ++ ['B'])) = q * (10 : ℚ) ^ 9 ∧
      parse_market_value (String.mk (l ++ ['M'])) = q * (10 : ℚ) ^ 6 ∧
      parse_market_value (String.mk l) = q) := by
  refine ⟨?_, ?_, ?_, ?_, ?_⟩
  · have hc : marketValueClean "2.5T" = ['2', '.', '5', 'T'] := by decide
    have hr : pyFloatRepr ['2', '.', '5'] = some ⟨false, 2, 5, 1, 0⟩ := by decide
    rw [parse_market_value, hc, marketValueCore, if_pos (by decide)]
    have hf : ['2', '.', '5', 'T'].filter (fun c => c ≠ 'T') = ['2', '.', '5'] :=
      by decide
    rw [hf, pyFloatChars, hr]
    show FloatRepr.toRat ⟨false, 2, 5, 1, 0⟩ * (10 : ℚ) ^ 12 = 2500000000000
    rw [FloatRepr.toRat]
    norm_num
  · have hc : marketValueClean "150.3B" = ['1', '5', '0', '.', '3', 'B'] := by decide
    have hr : pyFloatRepr ['1', '5', '0', '.', '3'] = some ⟨false, 150, 3, 1, 0⟩ :=
      by decide
    rw [parse_market_value, hc, marketValueCore, if_neg (by decide),
      if_pos (by decide)]
    have hf : ['1', '5', '0', '.', '3', 'B'].filter (fun c => c ≠ 'B') =
        ['1', '5', '0', '.', '3'] := by decide
    rw [hf, pyFloatChars, hr]
    show FloatRepr.toRat ⟨false, 150, 3, 1, 0⟩ * (10 : ℚ) ^ 9 = 150300000000
    rw [FloatRepr.toRat]
    norm_num
  · have hc : marketValueClean "45M" = ['4', '5', 'M'] := by decide
    have hr : pyFloatRepr ['4', '5'] = some ⟨false, 45, 0, 0, 0⟩ := by decide
    rw [parse_market_value, hc, marketValueCore, if_neg (by decide),
      if_neg (by decide), if_pos (by decide)]
    have hf : ['4', '5', 'M'].filter (fun c => c ≠ 'M') = ['4', '5'] := by decide
    rw [hf, pyFloatChars, hr]
    show FloatRepr.toRat ⟨false, 45, 0, 0, 0⟩ * (10 : ℚ) ^ 6 = 45000000
    rw [FloatRepr.toRat]
    norm_num
  · have hc : marketValueClean "garbage" = ['G', 'A', 'R', 'B', 'A', 'G', 'E'] :=
      by decide
    have hr : pyFloatRepr ['G', 'A', 'R', 'A', 'G', 'E'] = Option.none := by decide
    rw [parse_market_value, hc, marketValueCore, if_neg (by decide),
      if_pos (by decide)]
    have hf : ['G', 'A', 'R', 'B', 'A', 'G', 'E'].filter (fun c => c ≠ 'B') =
        ['G', 'A', 'R', 'A', 'G', 'E'] := by decide
    rw [hf, pyFloatChars, hr]
    rfl
  · intro l q hl hq
    exact ⟨parse_mv_T l q hl hq, parse_mv_B l q hl hq, parse_mv_M l q hl hq,
      parse_mv_plain l q hl hq⟩

/-- Witness for C5's general suffix clause at the numeral `3`. -/
theorem parse_market_value_spec_witness :
    (∀ c ∈ ['3'], c ∈ decChars) ∧ pyFloatChars ['3'] = some 3 ∧
    parse_market_value (String.mk (['3'] ++ ['T'])) = 3 * (10 : ℚ) ^ 12 := by
  have h1 : ∀ c ∈ ['3'], c ∈ decChars := by decide
  have h2 : pyFloatChars ['3'] = some 3 := by
    rw [pyFloatChars]
    have hr : pyFloatRepr ['3'] = some ⟨false, 3, 0, 0, 0⟩ := by decide
    rw [hr]
    show some (FloatRepr.toRat ⟨false, 3, 0, 0, 0⟩) = some 3
    rw [FloatRepr.toRat]
    norm_num
  exact ⟨h1, h2, (parse_market_value_spec.2.2.2.2 ['3'] 3 h1 h2).1⟩

/-- Witness for C9's non-emptiness clause at the example input. -/
theorem format_location_spec_witness :
    format_location [("city", .str "Austin"), ("state", .str ""),
      ("country", .str "USA")] ≠ "" :=
  (format_location_spec "Austin" "" "USA").2.1
